import Mathlib

/-!
Verification of the `bom-cache-worker` Cloudflare worker (`src/index.ts`),
an edge reverse-proxy/cache in front of ArcGIS query endpoints.

The worker is embedded shallowly:

* `URLSearchParams` is modelled as an ordered association list
  `List (String × String)` of decoded (name, value) pairs, with
  `spHas` / `spSet` / `spGet` / `spGetAll` mirroring `has` / `set` /
  `get` / `getAll` (exact, case-sensitive name comparison, as in the
  WHATWG URL standard).
* `Headers` is modelled the same way but with case-insensitive names
  (`headersSet` / `headersGet`), as in the Fetch standard.
* A `Response` is a status, a header list and an optional body string.
* The edge cache and the outbound `fetch` are oracles passed to the
  handler: `cacheMatch : String → Option Response` and
  `upstreamFetch : String → Option UpstreamResponse`, where `none` from
  `upstreamFetch` models the `fetch` call throwing (abort on the
  8-second timer, or a network error).
* The handler `handleFetch` returns the response together with the list
  of cache writes it schedules via `ctx.waitUntil(cache.put(...))`.
-/

namespace BomCacheWorker

/-- Ordered multiset of decoded query parameters, as in `URLSearchParams`. -/
abbrev Params := List (String × String)

/-- The `Env` interface of `src/index.ts`: wrangler-provided configuration. -/
structure Env where
  CORS_ORIGIN : String
  UPSTREAM_FLOOD : String
  UPSTREAM_WATER : String
  CACHE_TTL : String
deriving DecidableEq, Repr

/-- The dataset kind selected by routing: the `"flood" | "water"` union type. -/
inductive Kind where
  | flood
  | water
deriving DecidableEq, Repr

/-- A `Response` value: status, header list, optional body
(`none` models a `null` body, as in `new Response(null, ...)`). -/
structure Response where
  status : Nat
  headers : List (String × String)
  body : Option String
deriving DecidableEq, Repr

/-- The result of a successful upstream `fetch`: status, headers, and the
body bytes obtained by `arrayBuffer()` (modelled as a string). -/
structure UpstreamResponse where
  status : Nat
  headers : List (String × String)
  body : String
deriving DecidableEq, Repr

/-- An inbound request: method, URL pathname, decoded query parameters and
the `Origin` header (`none` when absent; `request.headers.get("Origin") ||
undefined` also turns an empty `Origin` value into `undefined`). -/
structure Request where
  method : String
  path : String
  params : Params
  origin : Option String
deriving DecidableEq, Repr

/-! ### `URLSearchParams` operations -/

/-- `URLSearchParams.has(n)`: is some pair with exactly this name present? -/
def spHas (ps : Params) (n : String) : Bool :=
  ps.any (fun p => p.1 = n)

/-- `URLSearchParams.get(n)`: the value of the first pair named `n`. -/
def spGet (ps : Params) (n : String) : Option String :=
  (ps.find? (fun p => p.1 = n)).map (fun p => p.2)

/-- `URLSearchParams.getAll(n)`: the values of all pairs named `n`, in order. -/
def spGetAll (ps : Params) (n : String) : List String :=
  (ps.filter (fun p => p.1 = n)).map (fun p => p.2)

/-- Remove every pair named `n`. -/
def spDeleteAll (ps : Params) (n : String) : Params :=
  ps.filter (fun p => ¬ p.1 = n)

/-- `URLSearchParams.set(n, v)`: if a pair named `n` exists, the first one
gets value `v` and the rest are removed; otherwise `(n, v)` is appended. -/
def spSet : Params → String → String → Params
  | [], n, v => [(n, v)]
  | (k, w) :: rest, n, v =>
    if k = n then (k, v) :: spDeleteAll rest n
    else (k, w) :: spSet rest n v

/-- The `if (!sp.has(n)) sp.set(n, v)` idiom of `applyDefaults`. -/
def setIfAbsent (ps : Params) (n v : String) : Params :=
  if spHas ps n then ps else spSet ps n v

/-! ### `Headers` operations (case-insensitive names) -/

/-- Lower-casing of a string, character by character (the names compared
with it here are plain ASCII, where this agrees with `toLowerCase`). -/
def lowerStr (s : String) : String :=
  String.mk (s.data.map Char.toLower)

/-- Header-name equivalence: HTTP header names are case-insensitive. -/
def headerNameEq (a b : String) : Bool :=
  lowerStr a = lowerStr b

/-- Remove every header whose name matches `n` (case-insensitively). -/
def headersDeleteAll (hs : List (String × String)) (n : String) : List (String × String) :=
  hs.filter (fun p => ¬ headerNameEq p.1 n)

/-- `Headers.set(n, v)`: the first matching header keeps its name casing and
gets value `v`, later matches are removed; otherwise `(n, v)` is appended. -/
def headersSet : List (String × String) → String → String → List (String × String)
  | [], n, v => [(n, v)]
  | (k, w) :: rest, n, v =>
    if headerNameEq k n then (k, v) :: headersDeleteAll rest n
    else (k, w) :: headersSet rest n v

/-- `Headers.get(n)`: the value of the first matching header. -/
def headersGet (hs : List (String × String)) (n : String) : Option String :=
  (hs.find? (fun p => headerNameEq p.1 n)).map (fun p => p.2)

/-! ### `withCORS` -/

/-- `String.prototype.trim()`: strip whitespace from both ends (ASCII
whitespace; the configured origins are plain ASCII). -/
def jsTrim (s : String) : String :=
  String.mk (((s.data.dropWhile Char.isWhitespace).reverse.dropWhile
    Char.isWhitespace).reverse)

/-- `String.prototype.split(sep)` for a one-character separator, on the
character list: `""` splits to `[""]`, as in JavaScript. -/
def splitOnCharAux (sep : Char) : List Char → List Char → List (List Char)
  | [], acc => [acc.reverse]
  | c :: rest, acc =>
    if c = sep then acc.reverse :: splitOnCharAux sep rest []
    else splitOnCharAux sep rest (c :: acc)

/-- The parsed allow-list: `originHeader.split(",").map(s => s.trim())`. -/
def corsAllowList (originHeader : String) : List String :=
  (splitOnCharAux ',' originHeader.data []).map (fun cs => jsTrim (String.mk cs))

/-- `withCORS(res, originHeader, reqOrigin)` from `src/index.ts`: copy the
headers, possibly set `Access-Control-Allow-Origin`, always set the three
fixed CORS headers, and rebuild the response with the same status and body. -/
def withCORS (res : Response) (originHeader : String) (reqOrigin : Option String) : Response :=
  let allowList := corsAllowList originHeader
  let h := res.headers
  let h :=
    match reqOrigin with
    | some o =>
      if allowList.contains "*" || allowList.contains o then
        headersSet h "Access-Control-Allow-Origin" o
      else if allowList.contains "*" then
        headersSet h "Access-Control-Allow-Origin" "*"
      else h
    | none =>
      if allowList.contains "*" then
        headersSet h "Access-Control-Allow-Origin" "*"
      else h
  let h := headersSet h "Access-Control-Allow-Methods" "GET,HEAD,OPTIONS"
  let h := headersSet h "Access-Control-Allow-Headers" "Content-Type"
  let h := headersSet h "Vary" "Origin"
  { status := res.status, headers := h, body := res.body }

/-! ### `applyDefaults` -/

/-- `applyDefaults(sp, kind)` from `src/index.ts`: fill in `f`,
`returnGeometry`, `outFields`, `where`, and a kind-dependent
`resultRecordCount`, each only if absent. -/
def applyDefaults (sp : Params) (kind : Kind) : Params :=
  let sp := setIfAbsent sp "f" "geojson"
  let sp := setIfAbsent sp "returnGeometry" "true"
  let sp := setIfAbsent sp "outFields" "*"
  let sp := setIfAbsent sp "where" "1=1"
  match kind with
  | Kind.flood => setIfAbsent sp "resultRecordCount" "500"
  | Kind.water => setIfAbsent sp "resultRecordCount" "1000"

/-! ### Routing -/

/-- `url.pathname.replace(/\/+$/, "")`: drop the maximal run of trailing
slashes. -/
def trimTrailingSlashes (s : String) : String :=
  String.mk ((s.data.reverse.dropWhile (fun c => c = '/')).reverse)

/-- Route selection: `/water` selects the water kind; `/flood`, `/` and every
other path fall back to flood. -/
def routeKind (path : String) : Kind :=
  if trimTrailingSlashes path = "/water" then Kind.water else Kind.flood

/-- `kind === "flood" ? env.UPSTREAM_FLOOD : env.UPSTREAM_WATER`. -/
def upstreamBaseFor (env : Env) (kind : Kind) : String :=
  match kind with
  | Kind.flood => env.UPSTREAM_FLOOD
  | Kind.water => env.UPSTREAM_WATER

/-! ### Upstream URL serialization (`URLSearchParams.toString`, `URL.toString`) -/

/-- The UTF-8 encoding of one character, as byte values. -/
def utf8Bytes (c : Char) : List Nat :=
  let n := c.toNat
  if n < 128 then [n]
  else if n < 2048 then [192 + n / 64, 128 + n % 64]
  else if n < 65536 then [224 + n / 4096, 128 + (n / 64) % 64, 128 + n % 64]
  else [240 + n / 262144, 128 + (n / 4096) % 64, 128 + (n / 64) % 64, 128 + n % 64]

/-- Bytes left verbatim by the `application/x-www-form-urlencoded` serializer:
ASCII alphanumerics and `*`, `-`, `.`, `_`. -/
def isFormSafe (b : Nat) : Bool :=
  (65 ≤ b && b ≤ 90) || (97 ≤ b && b ≤ 122) || (48 ≤ b && b ≤ 57) ||
    b = 42 || b = 45 || b = 46 || b = 95

/-- Upper-case hexadecimal digit for a value below 16. -/
def hexDigit (n : Nat) : Char :=
  if n < 10 then Char.ofNat (48 + n) else Char.ofNat (55 + n)

/-- Percent-encode a single UTF-8 byte (space becomes `+`). -/
def encodeByte (b : Nat) : String :=
  if b = 32 then "+"
  else if isFormSafe b then String.mk [Char.ofNat b]
  else String.mk ['%', hexDigit (b / 16), hexDigit (b % 16)]

/-- `application/x-www-form-urlencoded` encoding of one name or value. -/
def formUrlEncode (s : String) : String :=
  String.join (((s.data.flatMap utf8Bytes).map encodeByte))

/-- `URLSearchParams.toString()`: `name=value` pairs joined with `&`. -/
def serializeParams (ps : Params) : String :=
  String.intercalate "&" (ps.map (fun p => formUrlEncode p.1 ++ "=" ++ formUrlEncode p.2))

/-- The part of a base URL before its query string: assigning
`upstream.search` replaces any query the configured base carried. -/
def stripQuery (s : String) : String :=
  String.mk (s.data.takeWhile (fun c => ¬ c = '?'))

/-- The forwarded query parameters: the inbound query plus defaults for the
kind selected by routing. -/
def forwardedParams (req : Request) : Params :=
  applyDefaults req.params (routeKind req.path)

/-- `upstream.toString()` after `upstream.search = sp.toString()`: the fully
resolved upstream URL, used verbatim as the outbound target and cache key. -/
def upstreamURL (env : Env) (req : Request) : String :=
  stripQuery (upstreamBaseFor env (routeKind req.path)) ++ "?" ++
    serializeParams (forwardedParams req)

/-! ### TTL parsing and header normalization -/

/-- Digits-to-number accumulator for `jsParseInt`. -/
def digitsToNat (ds : List Char) : Nat :=
  ds.foldl (fun acc c => 10 * acc + (c.toNat - 48)) 0

/-- JavaScript `parseInt(s, 10)`: skip leading whitespace, read an optional
sign, then the longest run of decimal digits; `none` models `NaN` (no
digits). Trailing garbage is ignored. -/
def jsParseInt (s : String) : Option Int :=
  let cs := s.data.dropWhile (fun c => c.isWhitespace)
  let signAndRest : Int × List Char :=
    match cs with
    | '-' :: rest => (-1, rest)
    | '+' :: rest => (1, rest)
    | _ => (1, cs)
  let digits := signAndRest.2.takeWhile (fun c => c.isDigit)
  if digits.isEmpty then none
  else some (signAndRest.1 * (digitsToNat digits : Int))

/-- The rendering of `ttl` inside the template literal: `parseInt` results
print as integers, `NaN` prints as `NaN`. -/
def ttlString (cacheTTL : String) : String :=
  match jsParseInt (if cacheTTL = "" then "3600" else cacheTTL) with
  | some i => toString i
  | none => "NaN"

/-- The `Cache-Control` value set on every cache-miss response:
`` `public, max-age=${ttl}, s-maxage=${ttl}, stale-while-revalidate=60` ``
with `ttl = parseInt(env.CACHE_TTL || "3600", 10)`. -/
def cacheControlValue (cacheTTL : String) : String :=
  "public, max-age=" ++ ttlString cacheTTL ++ ", s-maxage=" ++ ttlString cacheTTL ++
    ", stale-while-revalidate=60"

/-- Header normalization on a cache miss: copy the upstream headers, force
`Content-Type`, overwrite `Cache-Control`. -/
def normalizeHeaders (uh : List (String × String)) (cacheTTL : String) :
    List (String × String) :=
  headersSet (headersSet uh "Content-Type" "application/json; charset=utf-8")
    "Cache-Control" (cacheControlValue cacheTTL)

/-- `fresh = new Response(body, { status: upstreamRes.status, headers: h })`. -/
def freshResponse (env : Env) (u : UpstreamResponse) : Response :=
  { status := u.status
    headers := normalizeHeaders u.headers env.CACHE_TTL
    body := some u.body }

/-- `Response.ok`: status in the 2xx range. -/
def upstreamOk (u : UpstreamResponse) : Bool :=
  200 ≤ u.status && u.status ≤ 299

/-- The body of the 504 error response:
`JSON.stringify({ error: "upstream_timeout_or_network" })`. -/
def timeoutErrorBody : String :=
  "\x7b\"error\":\"upstream_timeout_or_network\"\x7d"

/-! ### The worker entry point -/

/-- The `fetch` handler of `src/index.ts`. `cacheMatch` is the edge cache
(`caches.default.match`), keyed by the serialized upstream URL;
`upstreamFetch` is the outbound `fetch`, with `none` modelling a thrown
abort/network error. The second component of the result is the list of
cache writes scheduled with `ctx.waitUntil(cache.put(key, fresh.clone()))`. -/
def handleFetch (req : Request) (env : Env)
    (cacheMatch : String → Option Response)
    (upstreamFetch : String → Option UpstreamResponse) :
    Response × List (String × Response) :=
  if req.method = "OPTIONS" then
    (withCORS { status := 204, headers := [], body := none } env.CORS_ORIGIN req.origin, [])
  else if req.method ≠ "GET" then
    (withCORS { status := 405, headers := [], body := some "Method Not Allowed" }
      env.CORS_ORIGIN req.origin, [])
  else
    let key := upstreamURL env req
    match cacheMatch key with
    | some cached => (withCORS cached env.CORS_ORIGIN req.origin, [])
    | none =>
      match upstreamFetch key with
      | none =>
        (withCORS
          { status := 504
            headers := [("Content-Type", "application/json")]
            body := some timeoutErrorBody }
          env.CORS_ORIGIN req.origin, [])
      | some u =>
        let fresh := freshResponse env u
        (withCORS fresh env.CORS_ORIGIN req.origin,
          if upstreamOk u then [(key, fresh)] else [])

/-- The headers of `hs` named `m` (case-insensitively), in order. -/
def headersWithName (hs : List (String × String)) (m : String) : List (String × String) :=
  hs.filter (fun p => headerNameEq p.1 m)

/-! ### Step lemmas for `URLSearchParams` operations -/

theorem spHas_cons (k w : String) (tl : Params) (m : String) :
    spHas ((k, w) :: tl) m = if k = m then true else spHas tl m := by
  by_cases hk : k = m <;> simp [spHas, List.any_cons, hk]

theorem spGet_cons (k w : String) (tl : Params) (m : String) :
    spGet ((k, w) :: tl) m = if k = m then some w else spGet tl m := by
  by_cases hk : k = m <;> simp [spGet, List.find?_cons, hk]

theorem spGetAll_cons (k w : String) (tl : Params) (m : String) :
    spGetAll ((k, w) :: tl) m = if k = m then w :: spGetAll tl m else spGetAll tl m := by
  by_cases hk : k = m <;> simp [spGetAll, List.filter_cons, hk]

theorem spDeleteAll_cons (k w : String) (tl : Params) (n : String) :
    spDeleteAll ((k, w) :: tl) n
      = if k = n then spDeleteAll tl n else (k, w) :: spDeleteAll tl n := by
  by_cases hk : k = n <;> simp [spDeleteAll, List.filter_cons, hk]

theorem spSet_cons (k w : String) (tl : Params) (n v : String) :
    spSet ((k, w) :: tl) n v
      = if k = n then (k, v) :: spDeleteAll tl n else (k, w) :: spSet tl n v := rfl

theorem spHas_spDeleteAll_other (ps : Params) (n m : String) (h : ¬ m = n) :
    spHas (spDeleteAll ps n) m = spHas ps m := by
  induction ps with
  | nil => rfl
  | cons hd tl ih =>
    obtain ⟨k, w⟩ := hd
    rw [spDeleteAll_cons]
    by_cases hk : k = n
    · rw [if_pos hk, ih, spHas_cons, if_neg (fun e : k = m => h (e.symm.trans hk))]
    · rw [if_neg hk, spHas_cons, spHas_cons, ih]

theorem spGet_spDeleteAll_other (ps : Params) (n m : String) (h : ¬ m = n) :
    spGet (spDeleteAll ps n) m = spGet ps m := by
  induction ps with
  | nil => rfl
  | cons hd tl ih =>
    obtain ⟨k, w⟩ := hd
    rw [spDeleteAll_cons]
    by_cases hk : k = n
    · rw [if_pos hk, ih, spGet_cons, if_neg (fun e : k = m => h (e.symm.trans hk))]
    · rw [if_neg hk, spGet_cons, spGet_cons, ih]

theorem spGetAll_spDeleteAll_other (ps : Params) (n m : String) (h : ¬ m = n) :
    spGetAll (spDeleteAll ps n) m = spGetAll ps m := by
  induction ps with
  | nil => rfl
  | cons hd tl ih =>
    obtain ⟨k, w⟩ := hd
    rw [spDeleteAll_cons]
    by_cases hk : k = n
    · rw [if_pos hk, ih, spGetAll_cons, if_neg (fun e : k = m => h (e.symm.trans hk))]
    · rw [if_neg hk, spGetAll_cons, spGetAll_cons, ih]

theorem spHas_spSet (ps : Params) (n v m : String) :
    spHas (spSet ps n v) m = if m = n then true else spHas ps m := by
  induction ps with
  | nil =>
    show spHas [(n, v)] m = _
    rw [spHas_cons]
    by_cases hm : m = n
    · rw [if_pos hm.symm, if_pos hm]
    · rw [if_neg (fun e : n = m => hm e.symm), if_neg hm]
  | cons hd tl ih =>
    obtain ⟨k, w⟩ := hd
    rw [spSet_cons]
    by_cases hk : k = n
    · rw [if_pos hk, spHas_cons]
      by_cases hm : m = n
      · rw [if_pos (hk.trans hm.symm), if_pos hm]
      · rw [if_neg (fun e : k = m => hm (e.symm.trans hk)), if_neg hm,
          spHas_spDeleteAll_other tl n m hm, spHas_cons,
          if_neg (fun e : k = m => hm (e.symm.trans hk))]
    · rw [if_neg hk, spHas_cons, ih, spHas_cons]
      by_cases hm : m = n
      · rw [if_pos hm, if_pos hm, ite_self]
      · rw [if_neg hm, if_neg hm]

theorem spGet_spSet (ps : Params) (n v m : String) :
    spGet (spSet ps n v) m = if m = n then some v else spGet ps m := by
  induction ps with
  | nil =>
    show spGet [(n, v)] m = _
    rw [spGet_cons]
    by_cases hm : m = n
    · rw [if_pos hm.symm, if_pos hm]
    · rw [if_neg (fun e : n = m => hm e.symm), if_neg hm]
  | cons hd tl ih =>
    obtain ⟨k, w⟩ := hd
    rw [spSet_cons]
    by_cases hk : k = n
    · rw [if_pos hk, spGet_cons]
      by_cases hm : m = n
      · rw [if_pos (hk.trans hm.symm), if_pos hm]
      · rw [if_neg (fun e : k = m => hm (e.symm.trans hk)), if_neg hm,
          spGet_spDeleteAll_other tl n m hm, spGet_cons,
          if_neg (fun e : k = m => hm (e.symm.trans hk))]
    · rw [if_neg hk, spGet_cons, ih, spGet_cons]
      by_cases hm : m = n
      · rw [if_pos hm, if_pos hm, if_neg (fun e : k = m => hk (e.trans hm))]
      · rw [if_neg hm, if_neg hm]

theorem spGetAll_spSet_other (ps : Params) (n v m : String) (h : ¬ m = n) :
    spGetAll (spSet ps n v) m = spGetAll ps m := by
  induction ps with
  | nil =>
    show spGetAll [(n, v)] m = _
    rw [spGetAll_cons, if_neg (fun e : n = m => h e.symm)]
  | cons hd tl ih =>
    obtain ⟨k, w⟩ := hd
    rw [spSet_cons]
    by_cases hk : k = n
    · rw [if_pos hk, spGetAll_cons, if_neg (fun e : k = m => h (e.symm.trans hk)),
        spGetAll_spDeleteAll_other tl n m h, spGetAll_cons,
        if_neg (fun e : k = m => h (e.symm.trans hk))]
    · rw [if_neg hk, spGetAll_cons, ih, spGetAll_cons]

/-! ### Lemmas about `setIfAbsent` and `applyDefaults` -/

theorem setIfAbsent_of_has {ps : Params} {n : String} (v : String)
    (h : spHas ps n = true) : setIfAbsent ps n v = ps := by
  simp [setIfAbsent, h]

theorem spHas_setIfAbsent (ps : Params) (n v m : String) :
    spHas (setIfAbsent ps n v) m = if m = n then true else spHas ps m := by
  by_cases hn : spHas ps n = true
  · rw [setIfAbsent_of_has v hn]
    by_cases hm : m = n
    · rw [if_pos hm, hm, hn]
    · rw [if_neg hm]
  · simp only [setIfAbsent, hn, if_false, Bool.false_eq_true]
    exact spHas_spSet ps n v m

theorem spGet_setIfAbsent_other (ps : Params) (n v m : String) (h : ¬ m = n) :
    spGet (setIfAbsent ps n v) m = spGet ps m := by
  by_cases hn : spHas ps n = true
  · rw [setIfAbsent_of_has v hn]
  · simp only [setIfAbsent, hn, if_false, Bool.false_eq_true]
    rw [spGet_spSet, if_neg h]

theorem spGet_setIfAbsent_absent (ps : Params) (n v : String)
    (h : spHas ps n = false) : spGet (setIfAbsent ps n v) n = some v := by
  simp only [setIfAbsent, h, if_false, Bool.false_eq_true]
  rw [spGet_spSet, if_pos rfl]

theorem spGetAll_setIfAbsent_of_has (ps : Params) (n v m : String)
    (h : spHas ps m = true) : spGetAll (setIfAbsent ps n v) m = spGetAll ps m := by
  by_cases hn : spHas ps n = true
  · rw [setIfAbsent_of_has v hn]
  · simp only [setIfAbsent, hn, if_false, Bool.false_eq_true]
    refine spGetAll_spSet_other ps n v m (fun e => hn ?_)
    rw [← e]
    exact h

/-- After `applyDefaults`, all five default-eligible parameters are present. -/
theorem applyDefaults_has (sp : Params) (kind : Kind) :
    spHas (applyDefaults sp kind) "f" = true ∧
    spHas (applyDefaults sp kind) "returnGeometry" = true ∧
    spHas (applyDefaults sp kind) "outFields" = true ∧
    spHas (applyDefaults sp kind) "where" = true ∧
    spHas (applyDefaults sp kind) "resultRecordCount" = true := by
  cases kind <;> simp [applyDefaults, spHas_setIfAbsent]

/-! ### Step lemmas for `Headers` operations -/

theorem headerNameEq_refl (a : String) : headerNameEq a a = true := by
  simp [headerNameEq]

theorem headerNameEq_of_eq {a b : String} (h : lowerStr a = lowerStr b) :
    headerNameEq a b = true := by
  simp [headerNameEq, h]

theorem lowerStr_eq_of_headerNameEq {a b : String} (h : headerNameEq a b = true) :
    lowerStr a = lowerStr b := by
  simpa [headerNameEq] using h

theorem headerNameEq_false_of_ne {a b : String} (h : ¬ lowerStr a = lowerStr b) :
    headerNameEq a b = false := by
  simp [headerNameEq, h]

theorem headersGet_cons (k w : String) (tl : List (String × String)) (m : String) :
    headersGet ((k, w) :: tl) m
      = if headerNameEq k m then some w else headersGet tl m := by
  by_cases hk : headerNameEq k m = true
  · simp [headersGet, List.find?_cons, hk]
  · simp only [Bool.not_eq_true] at hk
    simp [headersGet, List.find?_cons, hk]

theorem headersWithName_cons (k w : String) (tl : List (String × String)) (m : String) :
    headersWithName ((k, w) :: tl) m
      = if headerNameEq k m then (k, w) :: headersWithName tl m
        else headersWithName tl m := by
  by_cases hk : headerNameEq k m = true
  · simp [headersWithName, List.filter_cons, hk]
  · simp only [Bool.not_eq_true] at hk
    simp [headersWithName, List.filter_cons, hk]

theorem headersDeleteAll_cons (k w : String) (tl : List (String × String)) (n : String) :
    headersDeleteAll ((k, w) :: tl) n
      = if headerNameEq k n then headersDeleteAll tl n
        else (k, w) :: headersDeleteAll tl n := by
  by_cases hk : headerNameEq k n = true
  · simp [headersDeleteAll, List.filter_cons, hk]
  · simp only [Bool.not_eq_true] at hk
    simp [headersDeleteAll, List.filter_cons, hk]

theorem headersSet_cons (k w : String) (tl : List (String × String)) (n v : String) :
    headersSet ((k, w) :: tl) n v
      = if headerNameEq k n then (k, v) :: headersDeleteAll tl n
        else (k, w) :: headersSet tl n v := rfl

theorem headersGet_headersDeleteAll_other (hs : List (String × String)) (n m : String)
    (h : ¬ lowerStr m = lowerStr n) :
    headersGet (headersDeleteAll hs n) m = headersGet hs m := by
  induction hs with
  | nil => rfl
  | cons hd tl ih =>
    obtain ⟨k, w⟩ := hd
    rw [headersDeleteAll_cons]
    by_cases hk : headerNameEq k n = true
    · have hkm : headerNameEq k m = false := by
        refine headerNameEq_false_of_ne (fun e => h ?_)
        rw [← e]
        exact lowerStr_eq_of_headerNameEq hk
      rw [if_pos hk, ih, headersGet_cons, hkm, if_neg (by simp)]
    · simp only [Bool.not_eq_true] at hk
      rw [if_neg (by simp [hk]), headersGet_cons, headersGet_cons, ih]

theorem headersWithName_headersDeleteAll_other (hs : List (String × String)) (n m : String)
    (h : ¬ lowerStr m = lowerStr n) :
    headersWithName (headersDeleteAll hs n) m = headersWithName hs m := by
  induction hs with
  | nil => rfl
  | cons hd tl ih =>
    obtain ⟨k, w⟩ := hd
    rw [headersDeleteAll_cons]
    by_cases hk : headerNameEq k n = true
    · have hkm : headerNameEq k m = false := by
        refine headerNameEq_false_of_ne (fun e => h ?_)
        rw [← e]
        exact lowerStr_eq_of_headerNameEq hk
      rw [if_pos hk, ih, headersWithName_cons, hkm, if_neg (by simp)]
    · simp only [Bool.not_eq_true] at hk
      rw [if_neg (by simp [hk]), headersWithName_cons, headersWithName_cons, ih]

theorem headersGet_headersSet (hs : List (String × String)) (n v m : String) :
    headersGet (headersSet hs n v) m
      = if headerNameEq m n then some v else headersGet hs m := by
  induction hs with
  | nil =>
    show headersGet [(n, v)] m = _
    rw [headersGet_cons]
    by_cases hm : headerNameEq m n = true
    · rw [if_pos (headerNameEq_of_eq (lowerStr_eq_of_headerNameEq hm).symm), if_pos hm]
    · have hnm : headerNameEq n m = false := by
        refine headerNameEq_false_of_ne (fun e => ?_)
        simp only [Bool.not_eq_true] at hm
        rw [headerNameEq_of_eq e.symm] at hm
        exact Bool.true_eq_false.mp hm
      rw [hnm, if_neg (by simp), if_neg (by simpa using hm)]
  | cons hd tl ih =>
    obtain ⟨k, w⟩ := hd
    rw [headersSet_cons]
    by_cases hk : headerNameEq k n = true
    · rw [if_pos hk, headersGet_cons]
      by_cases hm : headerNameEq m n = true
      · have : headerNameEq k m = true :=
          headerNameEq_of_eq ((lowerStr_eq_of_headerNameEq hk).trans
            (lowerStr_eq_of_headerNameEq hm).symm)
        rw [this, if_pos rfl, if_pos (by simpa using hm)]
      · have hkm : headerNameEq k m = false := by
          refine headerNameEq_false_of_ne (fun e => ?_)
          simp only [Bool.not_eq_true] at hm
          rw [headerNameEq_of_eq (e.symm.trans (lowerStr_eq_of_headerNameEq hk))] at hm
          exact Bool.true_eq_false.mp hm
        rw [hkm, if_neg (by simp),
          headersGet_headersDeleteAll_other tl n m
            (fun e => by
              simp only [Bool.not_eq_true] at hm
              rw [headerNameEq_of_eq e] at hm
              exact Bool.true_eq_false.mp hm),
          if_neg (by simpa using hm), headersGet_cons, hkm, if_neg (by simp)]
    · have hk2 : headerNameEq k n = false := by simpa using hk
      rw [if_neg (by simp [hk2]), headersGet_cons, ih, headersGet_cons]
      by_cases hkm : headerNameEq k m = true
      · have hm : headerNameEq m n = false := by
          refine headerNameEq_false_of_ne (fun e => ?_)
          rw [headerNameEq_of_eq ((lowerStr_eq_of_headerNameEq hkm).trans e)] at hk2
          exact Bool.true_eq_false.mp hk2
        simp [hm, hkm]
      · have hkm2 : headerNameEq k m = false := by simpa using hkm
        simp [hkm2]

theorem headersWithName_headersSet_other (hs : List (String × String)) (n v m : String)
    (h : ¬ lowerStr m = lowerStr n) :
    headersWithName (headersSet hs n v) m = headersWithName hs m := by
  induction hs with
  | nil =>
    show headersWithName [(n, v)] m = _
    rw [headersWithName_cons,
      if_neg (by simp [headerNameEq_false_of_ne (fun e : lowerStr n = lowerStr m => h e.symm)])]
  | cons hd tl ih =>
    obtain ⟨k, w⟩ := hd
    rw [headersSet_cons]
    by_cases hk : headerNameEq k n = true
    · have hkm : headerNameEq k m = false := by
        refine headerNameEq_false_of_ne (fun e => h ?_)
        rw [← e]
        exact lowerStr_eq_of_headerNameEq hk
      rw [if_pos hk, headersWithName_cons, hkm, if_neg (by simp),
        headersWithName_headersDeleteAll_other tl n m h, headersWithName_cons, hkm,
        if_neg (by simp)]
    · simp only [Bool.not_eq_true] at hk
      rw [if_neg (by simp [hk]), headersWithName_cons, ih, headersWithName_cons]

/-! ### Reduction lemmas for `withCORS` and `handleFetch` -/

theorem withCORS_status (res : Response) (oh : String) (ro : Option String) :
    (withCORS res oh ro).status = res.status := rfl

theorem withCORS_body (res : Response) (oh : String) (ro : Option String) :
    (withCORS res oh ro).body = res.body := rfl

theorem handleFetch_options (req : Request) (env : Env)
    (cacheMatch : String → Option Response)
    (upstreamFetch : String → Option UpstreamResponse)
    (h : req.method = "OPTIONS") :
    handleFetch req env cacheMatch upstreamFetch
      = (withCORS { status := 204, headers := [], body := none }
          env.CORS_ORIGIN req.origin, []) := by
  simp [handleFetch, h]

theorem handleFetch_bad_method (req : Request) (env : Env)
    (cacheMatch : String → Option Response)
    (upstreamFetch : String → Option UpstreamResponse)
    (h1 : ¬ req.method = "OPTIONS") (h2 : ¬ req.method = "GET") :
    handleFetch req env cacheMatch upstreamFetch
      = (withCORS { status := 405, headers := [], body := some "Method Not Allowed" }
          env.CORS_ORIGIN req.origin, []) := by
  simp [handleFetch, h1, h2]

theorem handleFetch_get_miss (req : Request) (env : Env)
    (cacheMatch : String → Option Response)
    (upstreamFetch : String → Option UpstreamResponse)
    (hm : req.method = "GET")
    (hmiss : cacheMatch (upstreamURL env req) = none) :
    handleFetch req env cacheMatch upstreamFetch
      = match upstreamFetch (upstreamURL env req) with
        | none =>
          (withCORS
            { status := 504
              headers := [("Content-Type", "application/json")]
              body := some timeoutErrorBody } env.CORS_ORIGIN req.origin, [])
        | some u =>
          (withCORS (freshResponse env u) env.CORS_ORIGIN req.origin,
            if upstreamOk u then [(upstreamURL env req, freshResponse env u)] else []) := by
  simp [handleFetch, hm, hmiss]

theorem spHas_setIfAbsent_of_has {ps : Params} {p : String} (n v : String)
    (h : spHas ps p = true) : spHas (setIfAbsent ps n v) p = true := by
  rw [spHas_setIfAbsent]
  by_cases e : p = n
  · rw [if_pos e]
  · rw [if_neg e]
    exact h

theorem spGet_eq_head_spGetAll (ps : Params) (m : String) :
    spGet ps m = (spGetAll ps m).head? := by
  induction ps with
  | nil => rfl
  | cons hd tl ih =>
    obtain ⟨k, w⟩ := hd
    rw [spGet_cons, spGetAll_cons]
    by_cases hk : k = m
    · rw [if_pos hk, if_pos hk]
      rfl
    · rw [if_neg hk, if_neg hk, ih]

theorem applyDefaults_getAll_of_has (sp : Params) (kind : Kind) (p : String)
    (h : spHas sp p = true) :
    spGetAll (applyDefaults sp kind) p = spGetAll sp p := by
  have h1 := spHas_setIfAbsent_of_has "f" "geojson" h
  have h2 := spHas_setIfAbsent_of_has "returnGeometry" "true" h1
  have h3 := spHas_setIfAbsent_of_has "outFields" "*" h2
  have h4 := spHas_setIfAbsent_of_has "where" "1=1" h3
  cases kind <;> simp only [applyDefaults] <;>
    rw [spGetAll_setIfAbsent_of_has _ _ _ _ h4, spGetAll_setIfAbsent_of_has _ _ _ _ h3,
      spGetAll_setIfAbsent_of_has _ _ _ _ h2, spGetAll_setIfAbsent_of_has _ _ _ _ h1,
      spGetAll_setIfAbsent_of_has _ _ _ _ h]

theorem applyDefaults_of_all_has (sp : Params) (kind : Kind)
    (h1 : spHas sp "f" = true) (h2 : spHas sp "returnGeometry" = true)
    (h3 : spHas sp "outFields" = true) (h4 : spHas sp "where" = true)
    (h5 : spHas sp "resultRecordCount" = true) :
    applyDefaults sp kind = sp := by
  cases kind <;> simp only [applyDefaults] <;>
    rw [setIfAbsent_of_has _ h1, setIfAbsent_of_has _ h2, setIfAbsent_of_has _ h3,
      setIfAbsent_of_has _ h4, setIfAbsent_of_has _ h5]

/-- C2: for every inbound query and every parameter of the default set that is
absent from it, the forwarded query carries the documented default value:
`f=geojson`, `returnGeometry=true`, `outFields=*`, `where=1=1`, and a
dataset-dependent `resultRecordCount` (500 for flood, 1000 for water). -/
theorem absent_params_get_defaults (req : Request) :
    (spHas req.params "f" = false →
      spGet (forwardedParams req) "f" = some "geojson") ∧
    (spHas req.params "returnGeometry" = false →
      spGet (forwardedParams req) "returnGeometry" = some "true") ∧
    (spHas req.params "outFields" = false →
      spGet (forwardedParams req) "outFields" = some "*") ∧
    (spHas req.params "where" = false →
      spGet (forwardedParams req) "where" = some "1=1") ∧
    (spHas req.params "resultRecordCount" = false →
      spGet (forwardedParams req) "resultRecordCount"
        = match routeKind req.path with
          | Kind.flood => some "500"
          | Kind.water => some "1000") := by
  unfold forwardedParams
  generalize req.params = sp
  generalize routeKind req.path = kind
  refine ⟨?_, ?_, ?_, ?_, ?_⟩ <;> intro h <;> cases kind <;>
    simp [applyDefaults, spGet_setIfAbsent_other, spGet_setIfAbsent_absent,
      spHas_setIfAbsent, h]

/-- C2 witness: an empty inbound query on the flood route receives every
documented default. -/
theorem absent_params_get_defaults_instance :
    spHas ([] : Params) "f" = false ∧
    spGet (forwardedParams { method := "GET", path := "/flood", params := [], origin := none })
      "f" = some "geojson" ∧
    spGet (forwardedParams { method := "GET", path := "/flood", params := [], origin := none })
      "resultRecordCount" = some "500" := by
  refine ⟨by decide, ?_, ?_⟩
  · exact (absent_params_get_defaults
      { method := "GET", path := "/flood", params := [], origin := none }).1 (by decide)
  · exact (absent_params_get_defaults
      { method := "GET", path := "/flood", params := [], origin := none }).2.2.2.2 (by decide)

/-- C3: for every inbound query and every parameter already present in it,
the forwarded query carries the client's value(s) for that parameter
unchanged; in particular the first value seen by the upstream is the
client's. -/
theorem present_params_pass_through (req : Request) (p : String)
    (h : spHas req.params p = true) :
    spGetAll (forwardedParams req) p = spGetAll req.params p ∧
    spGet (forwardedParams req) p = spGet req.params p := by
  refine ⟨applyDefaults_getAll_of_has _ _ _ h, ?_⟩
  rw [spGet_eq_head_spGetAll, spGet_eq_head_spGetAll]
  rw [show forwardedParams req = applyDefaults req.params (routeKind req.path) from rfl]
  rw [applyDefaults_getAll_of_has _ _ _ h]

/-- C3 witness: a client-specified `f=json` survives default application
unchanged. -/
theorem present_params_pass_through_instance :
    spHas [(("f" : String), ("json" : String))] "f" = true ∧
    spGetAll
      (forwardedParams { method := "GET", path := "/flood", params := [("f", "json")], origin := none })
      "f" = spGetAll [(("f" : String), ("json" : String))] "f" := by
  refine ⟨by decide, ?_⟩
  exact (present_params_pass_through
    { method := "GET", path := "/flood", params := [("f", "json")], origin := none }
    "f" (by decide)).1

/-- C9: `applyDefaults` is idempotent: applying it twice gives the same
parameter list as applying it once. -/
theorem applyDefaults_idempotent (sp : Params) (kind : Kind) :
    applyDefaults (applyDefaults sp kind) kind = applyDefaults sp kind := by
  obtain ⟨h1, h2, h3, h4, h5⟩ := applyDefaults_has sp kind
  exact applyDefaults_of_all_has _ _ h1 h2 h3 h4 h5

/-- C5 (amended): the `Access-Control-Allow-Origin` header of a
CORS-decorated response echoes the request origin exactly when that origin
is present and either listed or the allow-list contains `*`; it is `*` when
the origin is absent and the list contains `*`; otherwise `withCORS` does
not set it, so the header of the wrapped response passes through — it is
omitted when the wrapped response carried none, but an
`Access-Control-Allow-Origin` header copied from the upstream (or from the
cache) survives. The fixed `Access-Control-Allow-Methods`,
`Access-Control-Allow-Headers` and `Vary` headers are always set. -/
theorem cors_allow_origin_policy (res : Response) (originHeader : String)
    (reqOrigin : Option String) :
    headersGet (withCORS res originHeader reqOrigin).headers "Access-Control-Allow-Origin"
      = (match reqOrigin with
         | some o =>
           if (corsAllowList originHeader).contains "*"
               || (corsAllowList originHeader).contains o
           then some o
           else headersGet res.headers "Access-Control-Allow-Origin"
         | none =>
           if (corsAllowList originHeader).contains "*" then some "*"
           else headersGet res.headers "Access-Control-Allow-Origin") ∧
    headersGet (withCORS res originHeader reqOrigin).headers "Access-Control-Allow-Methods"
      = some "GET,HEAD,OPTIONS" ∧
    headersGet (withCORS res originHeader reqOrigin).headers "Access-Control-Allow-Headers"
      = some "Content-Type" ∧
    headersGet (withCORS res originHeader reqOrigin).headers "Vary" = some "Origin" := by
  have eOA : headerNameEq "Access-Control-Allow-Origin" "Access-Control-Allow-Origin"
      = true := by decide
  have eOM : headerNameEq "Access-Control-Allow-Origin" "Access-Control-Allow-Methods"
      = false := by decide
  have eOH : headerNameEq "Access-Control-Allow-Origin" "Access-Control-Allow-Headers"
      = false := by decide
  have eOV : headerNameEq "Access-Control-Allow-Origin" "Vary" = false := by decide
  have eMM : headerNameEq "Access-Control-Allow-Methods" "Access-Control-Allow-Methods"
      = true := by decide
  have eMH : headerNameEq "Access-Control-Allow-Methods" "Access-Control-Allow-Headers"
      = false := by decide
  have eMV : headerNameEq "Access-Control-Allow-Methods" "Vary" = false := by decide
  have eHH : headerNameEq "Access-Control-Allow-Headers" "Access-Control-Allow-Headers"
      = true := by decide
  have eHV : headerNameEq "Access-Control-Allow-Headers" "Vary" = false := by decide
  have eVV : headerNameEq "Vary" "Vary" = true := by decide
  refine ⟨?_, ?_, ?_, ?_⟩
  · cases reqOrigin with
    | none =>
      by_cases hw : "*" ∈ corsAllowList originHeader <;>
        simp [withCORS, headersGet_headersSet, eOA, eOM, eOH, eOV, hw]
    | some o =>
      by_cases hw : "*" ∈ corsAllowList originHeader <;>
        by_cases ho : o ∈ corsAllowList originHeader <;>
        simp [withCORS, headersGet_headersSet, eOA, eOM, eOH, eOV, hw, ho]
  · cases reqOrigin with
    | none => simp [withCORS, headersGet_headersSet, eMM, eMH, eMV]
    | some o => simp [withCORS, headersGet_headersSet, eMM, eMH, eMV]
  · cases reqOrigin with
    | none => simp [withCORS, headersGet_headersSet, eHH, eHV]
    | some o => simp [withCORS, headersGet_headersSet, eHH, eHV]
  · cases reqOrigin with
    | none => simp [withCORS, headersGet_headersSet, eVV]
    | some o => simp [withCORS, headersGet_headersSet, eVV]

/-- C5 counterexample: with allow-list `https://a.example` and a request
from the denied origin `https://c.example`, a cache-miss upstream response
that itself carries `Access-Control-Allow-Origin: *` is returned with that
header still present, so in the deny case the header is not always
omitted. -/
theorem cors_allow_origin_not_omitted_counterexample :
    headersGet (handleFetch ⟨"GET", "/", [], some "https://c.example"⟩
        ⟨"https://a.example", "http://upstream/flood/query",
          "http://upstream/water/query", "3600"⟩
        (fun _ => none)
        (fun _ => some ⟨200, [("Access-Control-Allow-Origin", "*")], "b"⟩)).1.headers
      "Access-Control-Allow-Origin" = some "*" ∧
    ¬ (some "*" : Option String) = none := by
  exact ⟨by decide, by decide⟩

theorem headersWithName_withCORS_other (res : Response) (originHeader : String)
    (reqOrigin : Option String) (n : String)
    (h1 : ¬ lowerStr n = lowerStr "Access-Control-Allow-Origin")
    (h2 : ¬ lowerStr n = lowerStr "Access-Control-Allow-Methods")
    (h3 : ¬ lowerStr n = lowerStr "Access-Control-Allow-Headers")
    (h4 : ¬ lowerStr n = lowerStr "Vary") :
    headersWithName (withCORS res originHeader reqOrigin).headers n
      = headersWithName res.headers n ∧
    headersGet (withCORS res originHeader reqOrigin).headers n
      = headersGet res.headers n := by
  refine ⟨?_, ?_⟩
  · cases reqOrigin with
    | none =>
      simp only [withCORS]
      rw [headersWithName_headersSet_other _ _ _ _ h4,
        headersWithName_headersSet_other _ _ _ _ h3,
        headersWithName_headersSet_other _ _ _ _ h2]
      by_cases hw : (corsAllowList originHeader).contains "*" = true
      · rw [if_pos hw, headersWithName_headersSet_other _ _ _ _ h1]
      · rw [if_neg hw]
    | some o =>
      simp only [withCORS]
      rw [headersWithName_headersSet_other _ _ _ _ h4,
        headersWithName_headersSet_other _ _ _ _ h3,
        headersWithName_headersSet_other _ _ _ _ h2]
      by_cases h5 : ((corsAllowList originHeader).contains "*"
          || (corsAllowList originHeader).contains o) = true
      · rw [if_pos h5, headersWithName_headersSet_other _ _ _ _ h1]
      · rw [if_neg h5]
        by_cases hw : (corsAllowList originHeader).contains "*" = true
        · rw [if_pos hw, headersWithName_headersSet_other _ _ _ _ h1]
        · rw [if_neg hw]
  · cases reqOrigin with
    | none =>
      simp only [withCORS]
      rw [headersGet_headersSet, headerNameEq_false_of_ne h4, if_neg (by simp),
        headersGet_headersSet, headerNameEq_false_of_ne h3, if_neg (by simp),
        headersGet_headersSet, headerNameEq_false_of_ne h2, if_neg (by simp)]
      by_cases hw : (corsAllowList originHeader).contains "*" = true
      · rw [if_pos hw, headersGet_headersSet, headerNameEq_false_of_ne h1,
          if_neg (by simp)]
      · rw [if_neg hw]
    | some o =>
      simp only [withCORS]
      rw [headersGet_headersSet, headerNameEq_false_of_ne h4, if_neg (by simp),
        headersGet_headersSet, headerNameEq_false_of_ne h3, if_neg (by simp),
        headersGet_headersSet, headerNameEq_false_of_ne h2, if_neg (by simp)]
      by_cases h5 : ((corsAllowList originHeader).contains "*"
          || (corsAllowList originHeader).contains o) = true
      · rw [if_pos h5, headersGet_headersSet, headerNameEq_false_of_ne h1,
          if_neg (by simp)]
      · rw [if_neg h5]
        by_cases hw : (corsAllowList originHeader).contains "*" = true
        · rw [if_pos hw, headersGet_headersSet, headerNameEq_false_of_ne h1,
            if_neg (by simp)]
        · rw [if_neg hw]

/-- C10: `withCORS` changes only the four CORS-related headers: status, body
and every header with any other name are passed through unchanged. -/
theorem withCORS_frame (res : Response) (originHeader : String) (reqOrigin : Option String)
    (n : String)
    (h1 : ¬ lowerStr n = lowerStr "Access-Control-Allow-Origin")
    (h2 : ¬ lowerStr n = lowerStr "Access-Control-Allow-Methods")
    (h3 : ¬ lowerStr n = lowerStr "Access-Control-Allow-Headers")
    (h4 : ¬ lowerStr n = lowerStr "Vary") :
    (withCORS res originHeader reqOrigin).status = res.status ∧
    (withCORS res originHeader reqOrigin).body = res.body ∧
    headersWithName (withCORS res originHeader reqOrigin).headers n
      = headersWithName res.headers n ∧
    headersGet (withCORS res originHeader reqOrigin).headers n
      = headersGet res.headers n := by
  obtain ⟨hf, hg⟩ := headersWithName_withCORS_other res originHeader reqOrigin n h1 h2 h3 h4
  exact ⟨rfl, rfl, hf, hg⟩

/-- C10 witness: a `Content-Type` header survives CORS decoration unchanged,
as do status and body. -/
theorem withCORS_frame_instance :
    ¬ lowerStr "Content-Type" = lowerStr "Vary" ∧
    (withCORS { status := 203, headers := [("Content-Type", "text/html")], body := some "b" }
      "*" (some "https://a.example")).status = 203 ∧
    (withCORS { status := 203, headers := [("Content-Type", "text/html")], body := some "b" }
      "*" (some "https://a.example")).body = some "b" ∧
    headersGet (withCORS
        { status := 203, headers := [("Content-Type", "text/html")], body := some "b" }
        "*" (some "https://a.example")).headers "Content-Type"
      = headersGet [(("Content-Type" : String), ("text/html" : String))] "Content-Type" := by
  have h := withCORS_frame
    { status := 203, headers := [("Content-Type", "text/html")], body := some "b" }
    "*" (some "https://a.example") "Content-Type"
    (by decide) (by decide) (by decide) (by decide)
  exact ⟨by decide, h.1, h.2.1, h.2.2.2⟩

/-- C1: on a GET cache miss with an upstream response, the handler schedules
the cache write — of the normalized response, keyed by the resolved upstream
URL — exactly when the upstream status is in the 2xx range (`Response.ok`);
a non-2xx response is returned with its status preserved and nothing is
written to the cache. -/
theorem cache_write_iff_upstream_2xx (req : Request) (env : Env)
    (cacheMatch : String → Option Response)
    (upstreamFetch : String → Option UpstreamResponse) (u : UpstreamResponse)
    (hm : req.method = "GET")
    (hmiss : cacheMatch (upstreamURL env req) = none)
    (hu : upstreamFetch (upstreamURL env req) = some u) :
    (handleFetch req env cacheMatch upstreamFetch).1.status = u.status ∧
    (upstreamOk u = true ↔ (200 ≤ u.status ∧ u.status ≤ 299)) ∧
    ((handleFetch req env cacheMatch upstreamFetch).2
        = [(upstreamURL env req, freshResponse env u)] ↔ upstreamOk u = true) ∧
    (upstreamOk u = false → (handleFetch req env cacheMatch upstreamFetch).2 = []) := by
  have h1 : (handleFetch req env cacheMatch upstreamFetch).1
      = withCORS (freshResponse env u) env.CORS_ORIGIN req.origin := by
    rw [handleFetch_get_miss req env cacheMatch upstreamFetch hm hmiss, hu]
  have h2 : (handleFetch req env cacheMatch upstreamFetch).2
      = if upstreamOk u then [(upstreamURL env req, freshResponse env u)] else [] := by
    rw [handleFetch_get_miss req env cacheMatch upstreamFetch hm hmiss, hu]
  refine ⟨by rw [h1]; rfl, ?_, ?_, ?_⟩
  · simp [upstreamOk]
  · rw [h2]
    by_cases hok : upstreamOk u = true
    · simp [hok]
    · simp [hok]
  · intro hok
    rw [h2, hok]
    rfl

/-- C1 witness: a 200 upstream response on a missed flood-route fetch is
returned with status 200 and written to the cache. -/
theorem cache_write_iff_upstream_2xx_instance :
    ((fun _ => (none : Option Response))
      (upstreamURL ⟨"*", "http://upstream/flood/query", "http://upstream/water/query", "3600"⟩
        ⟨"GET", "/flood", [], none⟩) = none) ∧
    (handleFetch ⟨"GET", "/flood", [], none⟩
      ⟨"*", "http://upstream/flood/query", "http://upstream/water/query", "3600"⟩
      (fun _ => none) (fun _ => some ⟨200, [], "data"⟩)).1.status = 200 := by
  refine ⟨rfl, ?_⟩
  exact (cache_write_iff_upstream_2xx ⟨"GET", "/flood", [], none⟩
    ⟨"*", "http://upstream/flood/query", "http://upstream/water/query", "3600"⟩
    (fun _ => none) (fun _ => some ⟨200, [], "data"⟩) ⟨200, [], "data"⟩
    rfl rfl rfl).1

/-- C4 (amended): on every cache-miss fetch, the returned response and the
normalized response that would be cached carry the Cache-Control value
`public, max-age=<t>, s-maxage=<t>, stale-while-revalidate=60`, where `<t>`
is `parseInt(CACHE_TTL || "3600", 10)` rendered as text: 3600 when
CACHE_TTL is unset (empty), the parsed integer when parsing succeeds, and
the literal text NaN when CACHE_TTL is non-empty but unparsable. -/
theorem cache_control_header (req : Request) (env : Env)
    (cacheMatch : String → Option Response)
    (upstreamFetch : String → Option UpstreamResponse) (u : UpstreamResponse)
    (hm : req.method = "GET")
    (hmiss : cacheMatch (upstreamURL env req) = none)
    (hu : upstreamFetch (upstreamURL env req) = some u) :
    headersGet (handleFetch req env cacheMatch upstreamFetch).1.headers "Cache-Control"
      = some (cacheControlValue env.CACHE_TTL) ∧
    headersGet (freshResponse env u).headers "Cache-Control"
      = some (cacheControlValue env.CACHE_TTL) ∧
    cacheControlValue env.CACHE_TTL
      = "public, max-age=" ++ ttlString env.CACHE_TTL ++ ", s-maxage="
          ++ ttlString env.CACHE_TTL ++ ", stale-while-revalidate=60" ∧
    (env.CACHE_TTL = "" → ttlString env.CACHE_TTL = "3600") ∧
    (∀ i : Int, jsParseInt env.CACHE_TTL = some i → ttlString env.CACHE_TTL = toString i) ∧
    (¬ env.CACHE_TTL = "" → jsParseInt env.CACHE_TTL = none →
      ttlString env.CACHE_TTL = "NaN") := by
  have eCC : headerNameEq "Cache-Control" "Cache-Control" = true := by decide
  have hfresh : headersGet (freshResponse env u).headers "Cache-Control"
      = some (cacheControlValue env.CACHE_TTL) := by
    simp [freshResponse, normalizeHeaders, headersGet_headersSet, eCC]
  have hred : (handleFetch req env cacheMatch upstreamFetch).1
      = withCORS (freshResponse env u) env.CORS_ORIGIN req.origin := by
    rw [handleFetch_get_miss req env cacheMatch upstreamFetch hm hmiss, hu]
  refine ⟨?_, hfresh, rfl, ?_, ?_, ?_⟩
  · rw [hred,
      (headersWithName_withCORS_other (freshResponse env u) env.CORS_ORIGIN req.origin
        "Cache-Control" (by decide) (by decide) (by decide) (by decide)).2]
    exact hfresh
  · intro h
    rw [ttlString, h]
    decide
  · intro i hi
    by_cases he : env.CACHE_TTL = ""
    · rw [he, show jsParseInt "" = none from rfl] at hi
      exact Option.noConfusion hi
    · rw [ttlString, if_neg he, hi]
  · intro h1 h2
    rw [ttlString, if_neg h1, h2]

/-- C4 witness (amended claim): with CACHE_TTL = "7200" the header value is
`public, max-age=7200, s-maxage=7200, stale-while-revalidate=60`. -/
theorem cache_control_header_instance :
    ((fun _ => (none : Option Response))
      (upstreamURL ⟨"*", "http://upstream/flood/query", "http://upstream/water/query", "7200"⟩
        ⟨"GET", "/", [], none⟩) = none) ∧
    headersGet (handleFetch ⟨"GET", "/", [], none⟩
        ⟨"*", "http://upstream/flood/query", "http://upstream/water/query", "7200"⟩
        (fun _ => none) (fun _ => some ⟨200, [], "b"⟩)).1.headers "Cache-Control"
      = some (cacheControlValue "7200") ∧
    cacheControlValue "7200"
      = "public, max-age=7200, s-maxage=7200, stale-while-revalidate=60" := by
  refine ⟨rfl, ?_, by decide⟩
  exact (cache_control_header ⟨"GET", "/", [], none⟩
    ⟨"*", "http://upstream/flood/query", "http://upstream/water/query", "7200"⟩
    (fun _ => none) (fun _ => some ⟨200, [], "b"⟩) ⟨200, [], "b"⟩
    rfl rfl rfl).1

/-- C4 counterexample: with CACHE_TTL set to the non-empty unparsable string
`oops`, a cache-miss response carries `max-age=NaN`, not `max-age=3600` as
the claim states for unparsable TTLs. -/
theorem cache_control_nan_counterexample :
    headersGet (handleFetch ⟨"GET", "/", [], none⟩
        ⟨"*", "http://upstream/flood/query", "http://upstream/water/query", "oops"⟩
        (fun _ => none) (fun _ => some ⟨200, [], "b"⟩)).1.headers "Cache-Control"
      = some "public, max-age=NaN, s-maxage=NaN, stale-while-revalidate=60" ∧
    ¬ some "public, max-age=NaN, s-maxage=NaN, stale-while-revalidate=60"
      = some "public, max-age=3600, s-maxage=3600, stale-while-revalidate=60" := by
  exact ⟨by decide, by decide⟩

/-- C6: when the upstream fetch throws (timeout abort or network failure) on
a GET cache miss, the handler returns the CORS-decorated 504 response with
body `\x7b"error":"upstream_timeout_or_network"\x7d` and schedules no cache
write. -/
theorem upstream_failure_504 (req : Request) (env : Env)
    (cacheMatch : String → Option Response)
    (upstreamFetch : String → Option UpstreamResponse)
    (hm : req.method = "GET")
    (hmiss : cacheMatch (upstreamURL env req) = none)
    (hu : upstreamFetch (upstreamURL env req) = none) :
    handleFetch req env cacheMatch upstreamFetch
      = (withCORS
          { status := 504
            headers := [("Content-Type", "application/json")]
            body := some timeoutErrorBody } env.CORS_ORIGIN req.origin, []) ∧
    (handleFetch req env cacheMatch upstreamFetch).1.status = 504 ∧
    (handleFetch req env cacheMatch upstreamFetch).1.body = some timeoutErrorBody ∧
    (handleFetch req env cacheMatch upstreamFetch).2 = [] := by
  have h := handleFetch_get_miss req env cacheMatch upstreamFetch hm hmiss
  rw [hu] at h
  exact ⟨h, by rw [h]; rfl, by rw [h]; rfl, by rw [h]⟩

/-- C6 witness: a failing upstream on a missed fetch yields the 504 error
response and an empty write list. -/
theorem upstream_failure_504_instance :
    ((fun _ => (none : Option UpstreamResponse))
      (upstreamURL ⟨"*", "http://upstream/flood/query", "http://upstream/water/query", "3600"⟩
        ⟨"GET", "/", [], none⟩) = none) ∧
    (handleFetch ⟨"GET", "/", [], none⟩
      ⟨"*", "http://upstream/flood/query", "http://upstream/water/query", "3600"⟩
      (fun _ => none) (fun _ => none)).1.status = 504 ∧
    (handleFetch ⟨"GET", "/", [], none⟩
      ⟨"*", "http://upstream/flood/query", "http://upstream/water/query", "3600"⟩
      (fun _ => none) (fun _ => none)).2 = [] := by
  have h := upstream_failure_504 ⟨"GET", "/", [], none⟩
    ⟨"*", "http://upstream/flood/query", "http://upstream/water/query", "3600"⟩
    (fun _ => none) (fun _ => none) rfl rfl rfl
  exact ⟨rfl, h.2.1, h.2.2.2⟩

/-- C7: an OPTIONS request yields the CORS-decorated empty 204 response,
any method other than OPTIONS and GET yields the CORS-decorated 405
response, and in both cases the result is independent of the cache and the
upstream, with no cache write. -/
theorem method_gating (req : Request) (env : Env)
    (c1 c2 : String → Option Response) (u1 u2 : String → Option UpstreamResponse) :
    (req.method = "OPTIONS" →
      handleFetch req env c1 u1
        = (withCORS { status := 204, headers := [], body := none }
            env.CORS_ORIGIN req.origin, []) ∧
      handleFetch req env c1 u1 = handleFetch req env c2 u2) ∧
    (¬ req.method = "OPTIONS" → ¬ req.method = "GET" →
      handleFetch req env c1 u1
        = (withCORS { status := 405, headers := [], body := some "Method Not Allowed" }
            env.CORS_ORIGIN req.origin, []) ∧
      handleFetch req env c1 u1 = handleFetch req env c2 u2) := by
  constructor
  · intro h
    exact ⟨handleFetch_options req env c1 u1 h,
      (handleFetch_options req env c1 u1 h).trans (handleFetch_options req env c2 u2 h).symm⟩
  · intro h1 h2
    exact ⟨handleFetch_bad_method req env c1 u1 h1 h2,
      (handleFetch_bad_method req env c1 u1 h1 h2).trans
        (handleFetch_bad_method req env c2 u2 h1 h2).symm⟩

/-- C7 witness: an OPTIONS request gets the 204 preflight response and a
POST request gets the 405 response, with CORS headers applied. -/
theorem method_gating_instance :
    handleFetch ⟨"OPTIONS", "/", [], none⟩ ⟨"*", "uF", "uW", ""⟩
        (fun _ => none) (fun _ => none)
      = (withCORS { status := 204, headers := [], body := none } "*" none, []) ∧
    handleFetch ⟨"POST", "/", [], none⟩ ⟨"*", "uF", "uW", ""⟩
        (fun _ => none) (fun _ => none)
      = (withCORS { status := 405, headers := [], body := some "Method Not Allowed" }
          "*" none, []) := by
  exact ⟨((method_gating ⟨"OPTIONS", "/", [], none⟩ ⟨"*", "uF", "uW", ""⟩
      (fun _ => none) (fun _ => none) (fun _ => none) (fun _ => none)).1 rfl).1,
    ((method_gating ⟨"POST", "/", [], none⟩ ⟨"*", "uF", "uW", ""⟩
      (fun _ => none) (fun _ => none) (fun _ => none) (fun _ => none)).2
      (by decide) (by decide)).1⟩

/-- C8: route selection trims trailing slashes, maps `/water` to the water
kind with upstream base UPSTREAM_WATER, and maps `/flood`, `/`, the empty
path and every unmatched path to the default flood kind with upstream base
UPSTREAM_FLOOD. -/
theorem route_selection (p : String) (env : Env) :
    (trimTrailingSlashes p = "/water" →
      routeKind p = Kind.water ∧ upstreamBaseFor env (routeKind p) = env.UPSTREAM_WATER) ∧
    (¬ trimTrailingSlashes p = "/water" →
      routeKind p = Kind.flood ∧ upstreamBaseFor env (routeKind p) = env.UPSTREAM_FLOOD) ∧
    routeKind "/water" = Kind.water ∧
    routeKind "/water/" = Kind.water ∧
    routeKind "/flood" = Kind.flood ∧
    routeKind "/" = Kind.flood ∧
    routeKind "" = Kind.flood := by
  refine ⟨?_, ?_, by decide, by decide, by decide, by decide, by decide⟩
  · intro h
    have hk : routeKind p = Kind.water := by
      simp only [routeKind]
      rw [if_pos h]
    exact ⟨hk, by rw [hk]; rfl⟩
  · intro h
    have hk : routeKind p = Kind.flood := by
      simp only [routeKind]
      rw [if_neg h]
    exact ⟨hk, by rw [hk]; rfl⟩

/-- C8 witness: `/water//` routes to water after trimming; an unknown path
routes to flood with the flood upstream base. -/
theorem route_selection_instance :
    trimTrailingSlashes "/water//" = "/water" ∧
    routeKind "/water//" = Kind.water ∧
    ¬ trimTrailingSlashes "/somewhere" = "/water" ∧
    routeKind "/somewhere" = Kind.flood ∧
    upstreamBaseFor ⟨"*", "uF", "uW", ""⟩ (routeKind "/somewhere") = "uF" := by
  refine ⟨by decide, ?_, by decide, ?_, ?_⟩
  · exact ((route_selection "/water//" ⟨"*", "uF", "uW", ""⟩).1 (by decide)).1
  · exact ((route_selection "/somewhere" ⟨"*", "uF", "uW", ""⟩).2.1 (by decide)).1
  · exact ((route_selection "/somewhere" ⟨"*", "uF", "uW", ""⟩).2.1 (by decide)).2

end BomCacheWorker
